import Mathlib

/-!
Verification of the Gitea release-please action (`src/index.ts`).

The development shallowly embeds the decision logic of the action:
the version resolver (`determineNextVersion`), the changelog generator
(`generateChangelog`), the output formatters (`outputReleases`,
`outputPRs`, `setPathOutput`) and the orchestration in `main`.
Network calls are modelled by an explicit environment of responses
(`Env`); the CI platform's output/warning facilities are modelled as
an accumulated trace.  JavaScript string/number coercions that the
code relies on (`Number(x) || 0`, truthiness of strings and of
optional booleans) are embedded explicitly at each use site.
-/

namespace ReleasePlease

/-- Decimal digit character for a value `d < 10` (JS number-to-string
rendering of a single digit). -/
def digitChar (d : Nat) : Char :=
  if d = 0 then '0' else if d = 1 then '1' else if d = 2 then '2'
  else if d = 3 then '3' else if d = 4 then '4' else if d = 5 then '5'
  else if d = 6 then '6' else if d = 7 then '7' else if d = 8 then '8'
  else '9'

/-- Fuel-driven decimal rendering of a natural number, most significant
digit first.  Fuel `n + 1` always suffices. -/
def natDigits : Nat → Nat → List Char
  | 0, _ => []
  | fuel + 1, n =>
    if n < 10 then [digitChar n]
    else natDigits fuel (n / 10) ++ [digitChar (n % 10)]

/-- Decimal rendering of a natural number, as produced by the JS
template-literal interpolation of a number. -/
def natToStr (n : Nat) : String := ⟨natDigits (n + 1) n⟩

/-- Value of a decimal digit string (most significant digit first). -/
def digitsToNat (l : List Char) : Nat :=
  l.foldl (fun acc c => 10 * acc + (c.toNat - 48)) 0

/-- The characters JS strips from both ends of a string before numeric
conversion: TAB, LF, VT, FF, CR, space, NBSP, LINE SEPARATOR,
PARAGRAPH SEPARATOR, BOM (the rarer Unicode space characters are
outside the model). -/
def isJsWhitespace (c : Char) : Bool :=
  c.toNat = 9 || c.toNat = 10 || c.toNat = 11 || c.toNat = 12 ||
  c.toNat = 13 || c.toNat = 32 || c.toNat = 160 || c.toNat = 8232 ||
  c.toNat = 8233 || c.toNat = 65279

/-- JS whitespace trimming of both ends of a fragment. -/
def trimWs (l : List Char) : List Char :=
  ((l.dropWhile isJsWhitespace).reverse.dropWhile isJsWhitespace).reverse

/-- A JS number as this program can observe one: `NaN`, a signed
infinity, or the exact decimal `num / 10 ^ scale`.  The action only
adds 1 to a component, tests its truthiness and interpolates it into a
string, and on dot-free fragments every reachable value is an exact
decimal, so IEEE-754 range and precision limits (rounding beyond 2^53,
overflow to infinity near 1e308, exponential rendering of values below
1e-6 or at and above 1e21) are outside the model. -/
inductive JSNum where
  | nan
  | inf (neg : Bool)
  | dec (num : Int) (scale : Nat)
  deriving DecidableEq

/-- Value of a hexadecimal digit, `16` for any other character. -/
def hexDigitVal (c : Char) : Nat :=
  if '0' ≤ c ∧ c ≤ '9' then c.toNat - 48
  else if 'a' ≤ c ∧ c ≤ 'f' then c.toNat - 87
  else if 'A' ≤ c ∧ c ≤ 'F' then c.toNat - 55
  else 16

/-- Whether `c` is a digit of the given base (2, 8 or 16). -/
def isRadixDigit (base : Nat) (c : Char) : Bool := hexDigitVal c < base

/-- Value of a digit string in the given base. -/
def radixVal (base : Nat) (l : List Char) : Nat :=
  l.foldl (fun a c => base * a + hexDigitVal c) 0

/-- Body of a JS `0x`/`0o`/`0b` literal: a nonempty run of digits of
the base, anything else `NaN`. -/
def parseRadix (base : Nat) (l : List Char) : JSNum :=
  if !l.isEmpty && l.all (isRadixDigit base) then
    JSNum.dec (radixVal base l) 0
  else JSNum.nan

/-- Digits of an exponent with the sign already consumed. -/
def expDigits (neg : Bool) (l : List Char) : Option Int :=
  if !l.isEmpty && l.all Char.isDigit then
    some (if neg then -(digitsToNat l : Int) else (digitsToNat l : Int))
  else none

/-- JS exponent part after the `e`/`E`: an optional sign and decimal
digits. -/
def parseExponent (l : List Char) : Option Int :=
  match l with
  | [] => none
  | c :: rest =>
    if c = '+' then expDigits false rest
    else if c = '-' then expDigits true rest
    else expDigits false (c :: rest)

/-- Apply a JS sign to an integer. -/
def signed (neg : Bool) (n : Int) : Int := if neg then -n else n

/-- JS `StrUnsignedDecimalLiteral` restricted to dot-free fragments:
`Infinity`, or decimal digits with an optional exponent. -/
def parseUnsignedDecimal (neg : Bool) (l : List Char) : JSNum :=
  if l = "Infinity".data then JSNum.inf neg
  else
    let ds := l.takeWhile Char.isDigit
    let rest := l.dropWhile Char.isDigit
    if ds.isEmpty then JSNum.nan
    else
      match rest with
      | [] => JSNum.dec (signed neg (digitsToNat ds)) 0
      | e :: erest =>
        if e = 'e' ∨ e = 'E' then
          match parseExponent erest with
          | none => JSNum.nan
          | some k =>
            if k < 0 then JSNum.dec (signed neg (digitsToNat ds)) k.natAbs
            else JSNum.dec (signed neg (digitsToNat ds) * (10 : Int) ^ k.toNat) 0
        else JSNum.nan

/-- Optional sign before the unsigned decimal literal. -/
def parseSignedDecimal (l : List Char) : JSNum :=
  match l with
  | [] => parseUnsignedDecimal false []
  | c :: rest =>
    if c = '+' then parseUnsignedDecimal false rest
    else if c = '-' then parseUnsignedDecimal true rest
    else parseUnsignedDecimal false (c :: rest)

/-- JS `Number(fragment)` for a dot-free fragment of a version string:
trim whitespace, an empty remainder is `0`, an unsigned `0x`/`0o`/`0b`
literal parses in its base, anything else is a signed decimal literal
(digits with optional exponent, or `Infinity`); any leftover text
makes the fragment `NaN`. -/
def jsNumber (raw : List Char) : JSNum :=
  match trimWs raw with
  | [] => JSNum.dec 0 0
  | [c0] => parseSignedDecimal [c0]
  | c0 :: c1 :: rest =>
    if c0 = '0' ∧ (c1 = 'x' ∨ c1 = 'X') then parseRadix 16 rest
    else if c0 = '0' ∧ (c1 = 'o' ∨ c1 = 'O') then parseRadix 8 rest
    else if c0 = '0' ∧ (c1 = 'b' ∨ c1 = 'B') then parseRadix 2 rest
    else parseSignedDecimal (c0 :: c1 :: rest)

/-- JS truthiness of a number: `NaN` and `±0` are falsy. -/
def jsTruthy : JSNum → Bool
  | JSNum.nan => false
  | JSNum.inf _ => true
  | JSNum.dec m _ => m ≠ 0

/-- JS `x || 0` on a number (also covering an absent component, which
the caller passes as `nan`: `undefined` is falsy like `NaN`). -/
def jsOr0 (x : JSNum) : JSNum :=
  if jsTruthy x then x else JSNum.dec 0 0

/-- JS `x + 1`: exact on decimals, absorbed by infinities and `NaN`. -/
def jsAddOne : JSNum → JSNum
  | JSNum.nan => JSNum.nan
  | JSNum.inf b => JSNum.inf b
  | JSNum.dec m k => JSNum.dec (m + 10 ^ k) k

/-- Reduce `num / 10 ^ scale` to lowest scale by removing trailing
decimal zeros. -/
def strip10 : Int → Nat → Int × Nat
  | m, 0 => (m, 0)
  | m, k + 1 => if m % 10 = 0 then strip10 (m / 10) k else (m, k + 1)

/-- Zero-pad a digit string on the left to width `k`. -/
def padZeros (k : Nat) (s : String) : String :=
  ⟨List.replicate (k - s.data.length) '0'⟩ ++ s

/-- Decimal rendering of a nonnegative `n / 10 ^ k` in lowest scale. -/
def renderDecimal (n : Nat) (k : Nat) : String :=
  if k = 0 then natToStr n
  else natToStr (n / 10 ^ k) ++ "." ++ padZeros k (natToStr (n % 10 ^ k))

/-- JS number-to-string as the template literals interpolate it. -/
def jsNumToStr (x : JSNum) : String :=
  match x with
  | JSNum.nan => "NaN"
  | JSNum.inf false => "Infinity"
  | JSNum.inf true => "-Infinity"
  | JSNum.dec m k =>
    let p := strip10 m k
    if p.1 < 0 then "-" ++ renderDecimal p.1.natAbs p.2
    else renderDecimal p.1.natAbs p.2

/-- JS `tag.replace(/^v/, '')`: drop a single leading letter `v`. -/
def stripV (l : List Char) : List Char :=
  match l with
  | [] => []
  | c :: rest => if c = 'v' then rest else c :: rest

/-- JS `String.prototype.split('.')` on the character list: the
maximal dot-free fragments, with an empty fragment between adjacent
dots and at the ends. -/
def splitChars : List Char → List (List Char)
  | [] => [[]]
  | c :: rest =>
    if c = '.' then [] :: splitChars rest
    else
      match splitChars rest with
      | [] => [[c]]
      | l :: ls => (c :: l) :: ls

/-- The version resolver (`determineNextVersion`, src/index.ts:271-296).
`latestTag` is the `tag_name` of the latest release, `none` when
`getLatestRelease` found no release.  Strips an optional leading `v`,
splits on dots, parses up to three components leniently, and bumps
according to the strategy; the `always-bump-patch` case and the switch
default coincide. -/
def determineNextVersion (latestTag : Option String)
    (versioningStrategy : Option String) : String :=
  match latestTag with
  | none => "1.0.0"
  | some tag =>
    let versionParts := (splitChars (stripV tag.data)).map jsNumber
    let major := jsOr0 (versionParts.getD 0 JSNum.nan)
    let minor := jsOr0 (versionParts.getD 1 JSNum.nan)
    let patch := jsOr0 (versionParts.getD 2 JSNum.nan)
    if versioningStrategy = some "always-bump-major" then
      jsNumToStr (jsAddOne major) ++ ".0.0"
    else if versioningStrategy = some "always-bump-minor" then
      jsNumToStr major ++ "." ++ jsNumToStr (jsAddOne minor) ++ ".0"
    else
      jsNumToStr major ++ "." ++ jsNumToStr minor ++ "." ++
        jsNumToStr (jsAddOne patch)

/-- One commit of the page returned by `listCommits`: its full
identifier and its commit message. -/
structure Commit where
  sha : String
  message : String
  deriving DecidableEq

/-- JS `message.split('\n')[0]`: the first line of a message. -/
def firstLine (s : String) : String := ⟨s.data.takeWhile (fun c => c ≠ '\n')⟩

/-- JS `sha.substring(0, 7)`: the 7-character abbreviated identifier. -/
def shaAbbrev (s : String) : String := ⟨s.data.take 7⟩

/-- The bullet line emitted for one commit
(src/index.ts:312-313). -/
def bulletOf (c : Commit) : String :=
  "* " ++ firstLine c.message ++ " (" ++ shaAbbrev c.sha ++ ")\n"

/-- The loop guard `fromTag && commit.sha === fromTag`
(src/index.ts:308): JS truthiness makes an absent or empty `fromTag`
never stop the loop. -/
def changelogStop (fromTag : Option String) (sha : String) : Bool :=
  match fromTag with
  | none => false
  | some t => t ≠ "" && sha = t

/-- The emission loop of `generateChangelog` over the commit page. -/
def changelogBody (fromTag : Option String) : List Commit → String
  | [] => ""
  | c :: rest =>
    if changelogStop fromTag c.sha then ""
    else bulletOf c ++ changelogBody fromTag rest

/-- The changelog generator (`generateChangelog`, src/index.ts:298-317).
`commits` stands for the page returned by `listCommits(toSha, 100)`
(newest first); `fromTag` is the previous release reference or `none`. -/
def generateChangelog (commits : List Commit) (fromTag : Option String) : String :=
  "## Changes\n\n" ++ changelogBody fromTag commits

/-- Concatenation of a list of text fragments, used to state what the
changelog loop produces. -/
def concatAll (l : List String) : String := l.foldr (fun a b => a ++ b) ""

/-- The `Release` record (src/index.ts:48-63).  Optional TS fields are
`Option`s; a `none` field is an absent/`undefined` field. -/
structure Release where
  id : Option Nat := none
  tagName : String
  name : String
  body : String
  draft : Option Bool := none
  prerelease : Option Bool := none
  path : String
  version : Option String := none
  major : Option Nat := none
  minor : Option Nat := none
  patch : Option Nat := none
  sha : Option String := none
  url : Option String := none
  uploadUrl : Option String := none
  deriving DecidableEq

/-- The `PullRequest` record (src/index.ts:65-73).  `labels` is always
assigned at the construction site in `main`, so it is kept non-optional. -/
structure PullRequest where
  number : Nat
  title : String
  body : String
  headBranchName : String
  baseBranchName : String
  url : String
  labels : List String
  deriving DecidableEq

/-- The `ActionInputs` record (src/index.ts:27-46). -/
structure ActionInputs where
  token : String
  repoUrl : String
  releaseType : Option String := none
  path : Option String := none
  giteaApiUrl : String
  configFile : String
  manifestFile : String
  proxyServer : Option String := none
  targetBranch : String
  skipGiteaRelease : Option Bool := none
  skipGiteaPullRequest : Option Bool := none
  skipLabeling : Option Bool := none
  includeComponentInTag : Option Bool := none
  changelogHost : String
  versioningStrategy : Option String := none
  releaseAs : Option String := none
  giteaOwner : String
  giteaRepo : String
  deriving DecidableEq

/-- A value passed to `core.setOutput`: a string, a boolean, a number,
or (for the `pr` output) a whole pull-request object. -/
inductive OutVal where
  | str (s : String)
  | bool (b : Bool)
  | num (n : Nat)
  | pr (p : PullRequest)
  deriving DecidableEq

/-- JSON escaping of the characters that can plausibly occur in the
strings this action emits. -/
def jsonEscapeChar (c : Char) : String :=
  if c = '"' then "\\\"" else if c = '\\' then "\\\\"
  else if c = '\n' then "\\n" else String.singleton c

/-- JSON encoding of a string. -/
def jsonString (s : String) : String :=
  "\"" ++ s.data.foldr (fun c acc => jsonEscapeChar c ++ acc) "" ++ "\""

/-- JSON encoding of an array of strings (JS `JSON.stringify` on a
string array). -/
def jsonStringArray (l : List String) : String :=
  "[" ++ String.intercalate "," (l.map jsonString) ++ "]"

/-- JSON encoding of a pull-request object, fields in the insertion
order of the construction site in `main`. -/
def jsonPR (p : PullRequest) : String :=
  "\x7b\"number\":" ++ natToStr p.number ++
  ",\"title\":" ++ jsonString p.title ++
  ",\"body\":" ++ jsonString p.body ++
  ",\"headBranchName\":" ++ jsonString p.headBranchName ++
  ",\"baseBranchName\":" ++ jsonString p.baseBranchName ++
  ",\"url\":" ++ jsonString p.url ++
  ",\"labels\":" ++ jsonStringArray p.labels ++ "\x7d"

/-- JSON encoding of an array of pull requests. -/
def jsonPRArray (l : List PullRequest) : String :=
  "[" ++ String.intercalate "," (l.map jsonPR) ++ "]"

/-- JS `s || d` for strings: an empty string is falsy. -/
def jsStrOr (s d : String) : String := if s = "" then d else s

/-- Key namespacing of `setPathOutput` (src/index.ts:399-405): keys of a
root-path (`.`) release are unprefixed, all others get `path--`. -/
def pathKey (path key : String) : String :=
  if path = "." then key else path ++ "--" ++ key

/-- The output key translation applied in `outputReleases`
(src/index.ts:422-427): internal field names to external output names. -/
def renameKey (k : String) : String :=
  if k = "tagName" then "tag_name"
  else if k = "uploadUrl" then "upload_url"
  else if k = "body" then "body"
  else if k = "url" then "html_url"
  else k

/-- JS `Object.entries(release)`: key/value pairs in the insertion
order of the construction site in `main` (src/index.ts:350-358 plus the
fields appended by `createRelease`, src/index.ts:141-146); fields that
are never assigned there are `none` and are filtered out below exactly
as `undefined` values are filtered by `value !== undefined`. -/
def releaseEntries (r : Release) : List (String × Option OutVal) :=
  [("tagName", some (OutVal.str r.tagName)),
   ("name", some (OutVal.str r.name)),
   ("body", some (OutVal.str r.body)),
   ("draft", r.draft.map OutVal.bool),
   ("prerelease", r.prerelease.map OutVal.bool),
   ("path", some (OutVal.str r.path)),
   ("version", r.version.map OutVal.str),
   ("major", r.major.map OutVal.num),
   ("minor", r.minor.map OutVal.num),
   ("patch", r.patch.map OutVal.num),
   ("sha", r.sha.map OutVal.str),
   ("id", r.id.map OutVal.num),
   ("url", r.url.map OutVal.str),
   ("uploadUrl", r.uploadUrl.map OutVal.str)]

/-- The outputs emitted for one release inside the loop of
`outputReleases` (src/index.ts:413-432). -/
def releaseLoopOutputs (r : Release) : List (String × OutVal) :=
  let path := jsStrOr r.path "."
  (pathKey path "release_created", OutVal.bool true) ::
    (releaseEntries r).filterMap
      (fun kv => kv.2.map (fun v => (pathKey path (renameKey kv.1), v)))

/-- The output formatter `outputReleases` (src/index.ts:407-436), as the
list of `core.setOutput` calls it makes, in order. -/
def outputReleases (releases : List Release) : List (String × OutVal) :=
  ("releases_created", OutVal.bool (releases.length > 0)) ::
    (releases.flatMap releaseLoopOutputs) ++
    [("paths_released",
      OutVal.str (jsonStringArray (releases.map (fun r => jsStrOr r.path "."))))]

/-- The output formatter `outputPRs` (src/index.ts:438-446), as the list
of `core.setOutput` calls it makes, in order. -/
def outputPRs (prs : List PullRequest) : List (String × OutVal) :=
  ("prs_created", OutVal.bool (prs.length > 0)) ::
    match prs with
    | [] => []
    | p :: _ => [("pr", OutVal.pr p), ("prs", OutVal.str (jsonPRArray prs))]

/-- Key namespacing as worded by the spec: when a release's originating
path is the repository root `.` the key is unprefixed, otherwise the
key is prefixed `path--`. -/
def specKey (path key : String) : String :=
  if path = "." then key else path ++ "--" ++ key

/-- The per-release output entries as worded by the spec: external
names (`tag_name`, `upload_url`, `html_url`, …) with their values,
`none` for a field with no value. -/
def specReleaseEntries (r : Release) : List (String × Option OutVal) :=
  [("tag_name", some (OutVal.str r.tagName)),
   ("name", some (OutVal.str r.name)),
   ("body", some (OutVal.str r.body)),
   ("draft", r.draft.map OutVal.bool),
   ("prerelease", r.prerelease.map OutVal.bool),
   ("path", some (OutVal.str r.path)),
   ("version", r.version.map OutVal.str),
   ("major", r.major.map OutVal.num),
   ("minor", r.minor.map OutVal.num),
   ("patch", r.patch.map OutVal.num),
   ("sha", r.sha.map OutVal.str),
   ("id", r.id.map OutVal.num),
   ("html_url", r.url.map OutVal.str),
   ("upload_url", r.uploadUrl.map OutVal.str)]

/-- The outputs for one release as worded by the spec: a
`release_created` flag plus one output per present field, every key
namespaced by the release's path, fields with no value omitted. -/
def specReleaseOutputs (r : Release) : List (String × OutVal) :=
  (specKey r.path "release_created", OutVal.bool true) ::
    (specReleaseEntries r).filterMap
      (fun kv => kv.2.map (fun v => (specKey r.path kv.1, v)))

/-- The network calls `main` can make, for the call log of a run. -/
inductive ApiCall where
  | getLatestRelease
  | getBranch
  | listCommits
  | createRelease
  | createRef
  | createPullRequest
  | addLabels
  deriving DecidableEq

/-- Responses of the hosting API for one invocation.  `getLatestRelease`
never fails in the client (its errors are swallowed into `none`,
src/index.ts:185-196); every other call either succeeds with the given
data or fails with an error message. -/
structure Env where
  latestRelease : Option String
  branchSha : Except String String
  commits : Except String (List Commit)
  createReleaseRes : Except String (Nat × String × String)
  createRefRes : Except String Unit
  createPRRes : Except String (Nat × String)
  addLabelsRes : Except String Unit

/-- What one branch of `main` accumulates: `setOutput` pairs, warning
messages, and the network calls it made, each in order. -/
structure St where
  outputs : List (String × OutVal)
  warnings : List String
  calls : List ApiCall
  deriving DecidableEq

/-- The final observable state of one invocation of `main`. -/
structure Trace where
  outputs : List (String × OutVal)
  warnings : List String
  calls : List ApiCall
  failed : Option String
  deriving DecidableEq

/-- The next-version expression occurring identically in both branches
of `main` (src/index.ts:334-335 and 367-368):
`inputs.releaseAs || await determineNextVersion(...)`.  `releaseAs`
comes from `getOptionalInput` and hence is never `some ""`, so JS
truthiness coincides with presence. -/
def nextVersionOf (i : ActionInputs) (latest : Option String) : String :=
  match i.releaseAs with
  | some v => v
  | none => determineNextVersion latest i.versioningStrategy

/-- The calls made by the `inputs.releaseAs || determineNextVersion`
expression: the resolver consults `getLatestRelease` only when the
override is absent. -/
def resolverCalls (i : ActionInputs) : List ApiCall :=
  match i.releaseAs with
  | some _ => []
  | none => [ApiCall.getLatestRelease]

/-- The tag-name expression of the release branch (src/index.ts:346-348):
`inputs.includeComponentInTag && inputs.path ? path-vV : vV`, with JS
truthiness on both the optional boolean and the optional string. -/
def tagNameFor (includeComponentInTag : Option Bool) (path : Option String)
    (version : String) : String :=
  match includeComponentInTag, path with
  | some true, some p => if p = "" then "v" ++ version else p ++ "-v" ++ version
  | _, _ => "v" ++ version

/-- The release-branch name of the PR branch (src/index.ts:371). -/
def releaseBranchNameFor (targetBranch version : String) : String :=
  "release-please--" ++ targetBranch ++ "--" ++ version

/-- JS `inputs.path || '.'` (src/index.ts:356). -/
def pathOf (i : ActionInputs) : String :=
  match i.path with
  | some p => jsStrOr p "."
  | none => "."

/-- The `fromTag` argument passed to the changelog generator
(src/index.ts:342): `latestRelease?.tag_name || null`. -/
def fromTagOf (latest : Option String) : Option String :=
  match latest with
  | none => none
  | some t => if t = "" then none else some t

/-- The release branch of `main` (src/index.ts:331-362), run unless
`skipGiteaRelease` is truthy.  Returns the outputs/warnings/calls this
branch contributes, or those plus the thrown error message. -/
def releaseBranchRun (env : Env) (i : ActionInputs) : Except (St × String) St :=
  if i.skipGiteaRelease = some true then Except.ok ⟨[], [], []⟩
  else
    let nextVersion := nextVersionOf i env.latestRelease
    match env.branchSha with
    | Except.error e => Except.error (⟨[], [], resolverCalls i ++ [ApiCall.getBranch]⟩, e)
    | Except.ok _ =>
      match env.commits with
      | Except.error e =>
        Except.error (⟨[], [],
          resolverCalls i ++ [ApiCall.getBranch, ApiCall.getLatestRelease, ApiCall.listCommits]⟩, e)
      | Except.ok commits =>
        let changelog := generateChangelog commits (fromTagOf env.latestRelease)
        let release : Release :=
          { tagName := tagNameFor i.includeComponentInTag i.path nextVersion,
            name := "Release " ++ nextVersion,
            body := changelog,
            draft := some false,
            prerelease := some false,
            path := pathOf i,
            version := some nextVersion }
        match env.createReleaseRes with
        | Except.error e =>
          Except.error (⟨[], [],
            resolverCalls i ++ [ApiCall.getBranch, ApiCall.getLatestRelease,
              ApiCall.listCommits, ApiCall.createRelease]⟩, e)
        | Except.ok (rid, htmlUrl, uploadUrl) =>
          let created :=
            { release with
              id := some rid
              url := some htmlUrl
              uploadUrl := some uploadUrl }
          Except.ok ⟨outputReleases [created], [],
            resolverCalls i ++ [ApiCall.getBranch, ApiCall.getLatestRelease,
              ApiCall.listCommits, ApiCall.createRelease]⟩

/-- The pull-request branch of `main` (src/index.ts:364-391), run unless
`skipGiteaPullRequest` is truthy.  A `createRef` failure is downgraded
to a warning (src/index.ts:373-377); the nested `addLabels` failure
inside `createPullRequest` (src/index.ts:165-172) propagates. -/
def prBranchRun (env : Env) (i : ActionInputs) : Except (St × String) St :=
  if i.skipGiteaPullRequest = some true then Except.ok ⟨[], [], []⟩
  else
    let nextVersion := nextVersionOf i env.latestRelease
    match env.branchSha with
    | Except.error e => Except.error (⟨[], [], resolverCalls i ++ [ApiCall.getBranch]⟩, e)
    | Except.ok _ =>
      let branchName := releaseBranchNameFor i.targetBranch nextVersion
      let refWarnings :=
        match env.createRefRes with
        | Except.ok _ => []
        | Except.error _ => ["Branch " ++ branchName ++ " may already exist"]
      let labels := if i.skipLabeling = some true then [] else ["autorelease: pending"]
      let pr : PullRequest :=
        { number := 0,
          title := "chore: release " ++ nextVersion,
          body := "Release " ++ nextVersion ++
            "\n\nThis PR was generated by release-please for Gitea.",
          headBranchName := branchName,
          baseBranchName := i.targetBranch,
          url := "",
          labels := labels }
      let baseCalls := resolverCalls i ++ [ApiCall.getBranch, ApiCall.createRef]
      match env.createPRRes with
      | Except.error e =>
        Except.error (⟨[], refWarnings, baseCalls ++ [ApiCall.createPullRequest]⟩, e)
      | Except.ok (num, url) =>
        let created := { pr with number := num, url := url }
        if labels.isEmpty then
          Except.ok ⟨outputPRs [created], refWarnings,
            baseCalls ++ [ApiCall.createPullRequest]⟩
        else
          match env.addLabelsRes with
          | Except.error e =>
            Except.error (⟨[], refWarnings,
              baseCalls ++ [ApiCall.createPullRequest, ApiCall.addLabels]⟩, e)
          | Except.ok _ =>
            Except.ok ⟨outputPRs [created], refWarnings,
              baseCalls ++ [ApiCall.createPullRequest, ApiCall.addLabels]⟩

/-- The failure message set by the top-level catch of `main`
(src/index.ts:394-396). -/
def failMsg (e : String) : String := "release-please failed: " ++ e

/-- The orchestration of `main` (src/index.ts:319-397): the release
branch, then the pull-request branch, inside one try/catch; the first
thrown error aborts the rest and marks the invocation failed, keeping
everything already emitted. -/
def mainRun (env : Env) (i : ActionInputs) : Trace :=
  match releaseBranchRun env i with
  | Except.error (d, e) => ⟨d.outputs, d.warnings, d.calls, some (failMsg e)⟩
  | Except.ok d =>
    match prBranchRun env i with
    | Except.error (d', e) =>
      ⟨d.outputs ++ d'.outputs, d.warnings ++ d'.warnings, d.calls ++ d'.calls,
        some (failMsg e)⟩
    | Except.ok d' =>
      ⟨d.outputs ++ d'.outputs, d.warnings ++ d'.warnings, d.calls ++ d'.calls, none⟩

/-- JS `core.getInput(name) || undefined` (`getOptionalInput`,
src/index.ts:99-101): `raw` is the string the CI platform returns for
the input, `''` when absent. -/
def getOptionalInput (raw : String) : Option String :=
  if raw = "" then none else some raw

/-- The external `core.getBooleanInput` of the CI platform library,
per its documented YAML 1.2 boolean parsing. -/
def getBooleanInput (raw : String) : Except String Bool :=
  if raw = "true" ∨ raw = "True" ∨ raw = "TRUE" then Except.ok true
  else if raw = "false" ∨ raw = "False" ∨ raw = "FALSE" then Except.ok false
  else Except.error "Input does not meet YAML 1.2 Core Schema specification"

/-- `getOptionalBooleanInput` (src/index.ts:103-109): an absent or
empty input parses to `undefined` without consulting the boolean
parser. -/
def getOptionalBooleanInput (raw : String) : Except String (Option Bool) :=
  if raw = "" then Except.ok none
  else (getBooleanInput raw).map some

/-- JS `core.getInput(name, { required: true })`: an absent input (the
empty string) raises. -/
def requiredInput (v : String) : Except String String :=
  if v = "" then Except.error "Input required and not supplied" else Except.ok v

/-- The raw input strings the CI platform supplies for one invocation,
one per named input consumed by `parseInputs` (`''` when absent). -/
structure RawInputs where
  token : String
  releaseType : String
  path : String
  repoUrl : String
  targetBranch : String
  configFile : String
  manifestFile : String
  giteaApiUrl : String
  proxyServer : String
  skipGiteaRelease : String
  skipGiteaPullRequest : String
  skipLabeling : String
  includeComponentInTag : String
  changelogHost : String
  versioningStrategy : String
  releaseAs : String
  giteaOwner : String
  giteaRepo : String
  deriving DecidableEq

/-- `parseInputs` (src/index.ts:75-97): builds the `ActionInputs`
record from the raw inputs, raising on a missing required input or an
unparsable boolean. -/
def parseInputs (r : RawInputs) : Except String ActionInputs :=
  match requiredInput r.token with
  | Except.error e => Except.error e
  | Except.ok token =>
  match requiredInput r.giteaApiUrl with
  | Except.error e => Except.error e
  | Except.ok giteaApiUrl =>
  match requiredInput r.giteaOwner with
  | Except.error e => Except.error e
  | Except.ok giteaOwner =>
  match requiredInput r.giteaRepo with
  | Except.error e => Except.error e
  | Except.ok giteaRepo =>
  match getOptionalBooleanInput r.skipGiteaRelease with
  | Except.error e => Except.error e
  | Except.ok skipGiteaRelease =>
  match getOptionalBooleanInput r.skipGiteaPullRequest with
  | Except.error e => Except.error e
  | Except.ok skipGiteaPullRequest =>
  match getOptionalBooleanInput r.skipLabeling with
  | Except.error e => Except.error e
  | Except.ok skipLabeling =>
  match getOptionalBooleanInput r.includeComponentInTag with
  | Except.error e => Except.error e
  | Except.ok includeComponentInTag =>
  Except.ok
    { token := token,
      repoUrl := r.repoUrl,
      releaseType := getOptionalInput r.releaseType,
      path := getOptionalInput r.path,
      giteaApiUrl := giteaApiUrl,
      configFile := jsStrOr r.configFile "release-please-config.json",
      manifestFile := jsStrOr r.manifestFile ".release-please-manifest.json",
      proxyServer := getOptionalInput r.proxyServer,
      targetBranch := jsStrOr r.targetBranch "main",
      skipGiteaRelease := skipGiteaRelease,
      skipGiteaPullRequest := skipGiteaPullRequest,
      skipLabeling := skipLabeling,
      includeComponentInTag := includeComponentInTag,
      changelogHost := r.changelogHost,
      versioningStrategy := getOptionalInput r.versioningStrategy,
      releaseAs := getOptionalInput r.releaseAs,
      giteaOwner := giteaOwner,
      giteaRepo := giteaRepo }

/-- The state a branch contributed, whether it succeeded or failed. -/
def exceptDelta : Except (St × String) St → St
  | Except.ok d => d
  | Except.error (d, _) => d

/-- The keys (before path namespacing) a release can contribute to the
outputs. -/
def relKeys : List String :=
  ["release_created", "tag_name", "name", "body", "draft", "prerelease",
   "path", "version", "major", "minor", "patch", "sha", "id", "html_url",
   "upload_url"]

/-- A fully successful environment used to exercise concrete runs:
latest release `v1.2.3`, an empty commit page, and succeeding mutating
calls. -/
def baseEnv : Env :=
  { latestRelease := some "v1.2.3",
    branchSha := Except.ok "headsha1234",
    commits := Except.ok [],
    createReleaseRes := Except.ok (1, "u", "uu"),
    createRefRes := Except.ok (),
    createPRRes := Except.ok (9, "pru"),
    addLabelsRes := Except.ok () }

/-- A minimal complete input record: required fields set, everything
optional left unset. -/
def baseInputs : ActionInputs :=
  { token := "t", repoUrl := "", giteaApiUrl := "http://h/api/v1",
    configFile := "release-please-config.json",
    manifestFile := ".release-please-manifest.json",
    targetBranch := "main", changelogHost := "",
    giteaOwner := "o", giteaRepo := "r" }

/-- Inputs of the end-to-end scenario: patch strategy, PR branch
skipped. -/
def inputsSkipPR : ActionInputs :=
  { baseInputs with
    skipGiteaPullRequest := some true
    versioningStrategy := some "always-bump-patch" }

/-- Inputs with an explicit release-as override set. -/
def inputsReleaseAs : ActionInputs := { baseInputs with releaseAs := some "9.9.9" }

/-- Environment in which the branch lookup fails. -/
def envShaFail : Env := { baseEnv with branchSha := Except.error "boom" }

/-- Environment in which only the pull-request creation fails. -/
def envPRFail : Env := { baseEnv with createPRRes := Except.error "prboom" }

/-- Environment in which only the ref creation fails. -/
def envRefFail : Env := { baseEnv with createRefRes := Except.error "refboom" }

/-- Environment in which only the label attachment fails. -/
def envLabelFail : Env := { baseEnv with addLabelsRes := Except.error "labelboom" }

end ReleasePlease




namespace ReleasePlease

theorem all_digit_no_dot {l : List Char} (h : l.all Char.isDigit = true) :
    '.' ∉ l := by
  intro mem
  have hd := List.all_eq_true.mp h _ mem
  exact absurd hd (by decide)

theorem splitChars_no_dot {l : List Char} (h : '.' ∉ l) : splitChars l = [l] := by
  induction l with
  | nil => rfl
  | cons c t ih =>
    have hc : c ≠ '.' := fun hh => h (hh ▸ List.mem_cons_self c t)
    have ht : '.' ∉ t := fun m => h (List.mem_cons_of_mem _ m)
    simp only [splitChars, if_neg hc, ih ht]

theorem splitChars_append {l₁ : List Char} (rest : List Char) (h : '.' ∉ l₁) :
    splitChars (l₁ ++ '.' :: rest) = l₁ :: splitChars rest := by
  induction l₁ with
  | nil => simp [splitChars]
  | cons c t ih =>
    have hc : c ≠ '.' := fun hh => h (hh ▸ List.mem_cons_self c t)
    have ht : '.' ∉ t := fun m => h (List.mem_cons_of_mem _ m)
    simp only [List.cons_append, splitChars, if_neg hc, List.append_eq, ih ht]

theorem takeWhile_all {p : Char → Bool} {l : List Char} (h : l.all p = true) :
    l.takeWhile p = l := by
  induction l with
  | nil => rfl
  | cons c t ih =>
    rw [List.all_cons, Bool.and_eq_true] at h
    simp [List.takeWhile_cons, h.1, ih h.2]

theorem dropWhile_all {p : Char → Bool} {l : List Char} (h : l.all p = true) :
    l.dropWhile p = [] := by
  induction l with
  | nil => rfl
  | cons c t ih =>
    rw [List.all_cons, Bool.and_eq_true] at h
    simp [List.dropWhile_cons, h.1, ih h.2]

theorem dropWhile_eq_self {p : Char → Bool} {l : List Char}
    (h : ∀ c ∈ l, p c = false) : l.dropWhile p = l := by
  cases l with
  | nil => rfl
  | cons c t => simp [List.dropWhile_cons, h c (List.mem_cons_self c t)]

theorem digit_toNat {c : Char} (h : c.isDigit = true) :
    48 ≤ c.toNat ∧ c.toNat ≤ 57 := by
  rw [Char.isDigit, Bool.and_eq_true, decide_eq_true_iff, decide_eq_true_iff] at h
  exact ⟨h.1, h.2⟩

theorem not_ws_of_digit {c : Char} (h : c.isDigit = true) :
    isJsWhitespace c = false := by
  have hb := digit_toNat h
  simp only [isJsWhitespace, Bool.or_eq_false_iff, decide_eq_false_iff_not]
  omega

theorem trimWs_of_digits {l : List Char} (h : l.all Char.isDigit = true) :
    trimWs l = l := by
  have hws : ∀ c ∈ l, isJsWhitespace c = false :=
    fun c hc => not_ws_of_digit (List.all_eq_true.mp h c hc)
  unfold trimWs
  rw [dropWhile_eq_self hws,
    dropWhile_eq_self (fun c hc => hws c (List.mem_reverse.mp hc)),
    List.reverse_reverse]

theorem digit_ne {c x : Char} (h : c.isDigit = true) (hx : x.isDigit = false) :
    c ≠ x := by
  intro hc
  rw [hc, hx] at h
  exact Bool.false_ne_true h

theorem parseUnsignedDecimal_digits {l : List Char} (h1 : l ≠ [])
    (h2 : l.all Char.isDigit = true) :
    parseUnsignedDecimal false l = JSNum.dec (digitsToNat l) 0 := by
  have hinf : l ≠ "Infinity".data := by
    intro heq
    rw [heq] at h2
    exact absurd h2 (by decide)
  unfold parseUnsignedDecimal
  rw [if_neg hinf, takeWhile_all h2, dropWhile_all h2]
  have hne : l.isEmpty = false := by
    cases l with
    | nil => exact absurd rfl h1
    | cons c t => rfl
  simp [hne, signed]

theorem parseSignedDecimal_digits {l : List Char} (h1 : l ≠ [])
    (h2 : l.all Char.isDigit = true) :
    parseSignedDecimal l = JSNum.dec (digitsToNat l) 0 := by
  obtain ⟨c, t, rfl⟩ := List.exists_cons_of_ne_nil h1
  have hc : c.isDigit = true :=
    List.all_eq_true.mp h2 c (List.mem_cons_self c t)
  unfold parseSignedDecimal
  dsimp only
  rw [if_neg (digit_ne hc (by decide)), if_neg (digit_ne hc (by decide))]
  exact parseUnsignedDecimal_digits h1 h2

theorem jsNumber_digits {l : List Char} (h1 : l ≠ [])
    (h2 : l.all Char.isDigit = true) :
    jsNumber l = JSNum.dec (digitsToNat l) 0 := by
  unfold jsNumber
  rw [trimWs_of_digits h2]
  obtain ⟨c, t, rfl⟩ := List.exists_cons_of_ne_nil h1
  cases t with
  | nil => exact parseSignedDecimal_digits h1 h2
  | cons c1 t1 =>
    dsimp only
    have hc1 : c1.isDigit = true :=
      List.all_eq_true.mp h2 c1 (List.mem_cons_of_mem c (List.mem_cons_self c1 t1))
    have hx : ¬ (c = '0' ∧ (c1 = 'x' ∨ c1 = 'X')) := by
      rintro ⟨_, rfl | rfl⟩ <;> simp at hc1
    have ho : ¬ (c = '0' ∧ (c1 = 'o' ∨ c1 = 'O')) := by
      rintro ⟨_, rfl | rfl⟩ <;> simp at hc1
    have hb : ¬ (c = '0' ∧ (c1 = 'b' ∨ c1 = 'B')) := by
      rintro ⟨_, rfl | rfl⟩ <;> simp at hc1
    rw [if_neg hx, if_neg ho, if_neg hb]
    exact parseSignedDecimal_digits h1 h2

theorem jsOr0_dec0 (m : Int) : jsOr0 (JSNum.dec m 0) = JSNum.dec m 0 := by
  by_cases hm : m = 0 <;> simp [jsOr0, jsTruthy, hm]

theorem jsAddOne_natCast (n : Nat) :
    jsAddOne (JSNum.dec (n : Int) 0) = JSNum.dec ((n + 1 : Nat) : Int) 0 := by
  simp [jsAddOne]

theorem jsNumToStr_natCast (n : Nat) :
    jsNumToStr (JSNum.dec (n : Int) 0) = natToStr n := by
  unfold jsNumToStr
  dsimp only
  rw [show strip10 (n : Int) 0 = ((n : Int), 0) from rfl]
  rw [if_neg (Int.not_lt.mpr (Int.natCast_nonneg n))]
  simp [renderDecimal, Int.natAbs_ofNat]

theorem determineNextVersion_parts (tag : String) (strat : Option String)
    (v1 v2 v3 : Nat)
    (h : (splitChars (stripV tag.data)).map jsNumber =
      [JSNum.dec (v1 : Int) 0, JSNum.dec (v2 : Int) 0, JSNum.dec (v3 : Int) 0]) :
    determineNextVersion (some tag) strat =
      if strat = some "always-bump-major" then natToStr (v1 + 1) ++ ".0.0"
      else if strat = some "always-bump-minor" then
        natToStr v1 ++ "." ++ natToStr (v2 + 1) ++ ".0"
      else natToStr v1 ++ "." ++ natToStr v2 ++ "." ++ natToStr (v3 + 1) := by
  simp only [determineNextVersion, h, List.getD_cons_zero, List.getD_cons_succ,
    jsOr0_dec0, jsAddOne_natCast, jsNumToStr_natCast]

end ReleasePlease

namespace ReleasePlease

theorem data_triple (s1 s2 s3 tag : String) (vpfx : Bool)
    (htag : tag = (if vpfx then "v" else "") ++ s1 ++ "." ++ s2 ++ "." ++ s3) :
    tag.data = (if vpfx then ['v'] else []) ++
      (s1.data ++ '.' :: (s2.data ++ '.' :: s3.data)) := by
  subst htag
  cases vpfx <;> simp [String.data_append]

theorem stripV_digits {l : List Char} (rest : List Char) (hne : l ≠ [])
    (hdg : l.all Char.isDigit = true) :
    stripV (l ++ rest) = l ++ rest := by
  obtain ⟨c, t, rfl⟩ := List.exists_cons_of_ne_nil hne
  have hd : c.isDigit = true := List.all_eq_true.mp hdg _ (List.mem_cons_self c t)
  have hv : c ≠ 'v' := by
    intro hh
    rw [hh] at hd
    exact absurd hd (by decide)
  simp [stripV, if_neg hv]

theorem parts_triple (s1 s2 s3 tag : String) (vpfx : Bool)
    (h1 : s1.data ≠ [] ∧ s1.data.all Char.isDigit = true)
    (h2 : s2.data ≠ [] ∧ s2.data.all Char.isDigit = true)
    (h3 : s3.data ≠ [] ∧ s3.data.all Char.isDigit = true)
    (htag : tag = (if vpfx then "v" else "") ++ s1 ++ "." ++ s2 ++ "." ++ s3) :
    (splitChars (stripV tag.data)).map jsNumber =
      [JSNum.dec (digitsToNat s1.data : Int) 0,
       JSNum.dec (digitsToNat s2.data : Int) 0,
       JSNum.dec (digitsToNat s3.data : Int) 0] := by
  obtain ⟨ne1, dg1⟩ := h1
  obtain ⟨ne2, dg2⟩ := h2
  obtain ⟨ne3, dg3⟩ := h3
  have hstrip : stripV tag.data = s1.data ++ '.' :: (s2.data ++ '.' :: s3.data) := by
    rw [data_triple s1 s2 s3 tag vpfx htag]
    cases vpfx
    · simpa using stripV_digits ('.' :: (s2.data ++ '.' :: s3.data)) ne1 dg1
    · simp [stripV]
  rw [hstrip, splitChars_append _ (all_digit_no_dot dg1),
    splitChars_append _ (all_digit_no_dot dg2),
    splitChars_no_dot (all_digit_no_dot dg3), List.map_cons, List.map_cons,
    List.map_singleton, jsNumber_digits ne1 dg1,
    jsNumber_digits ne2 dg2, jsNumber_digits ne3 dg3]

/-- C1: for a latest tag of the form optional-`v` plus three numeric
dot-separated components, `determineNextVersion` bumps
`(major+1).0.0` under `always-bump-major`, `major.(minor+1).0` under
`always-bump-minor`, and `major.minor.(patch+1)` under any other
strategy value (including `always-bump-patch`, an absent strategy, and
any unrecognized string); with no prior release it returns `1.0.0`
under every strategy. -/
theorem c1_version_resolver (s1 s2 s3 tag : String) (vpfx : Bool)
    (strat : Option String)
    (h1 : s1.data ≠ [] ∧ s1.data.all Char.isDigit = true)
    (h2 : s2.data ≠ [] ∧ s2.data.all Char.isDigit = true)
    (h3 : s3.data ≠ [] ∧ s3.data.all Char.isDigit = true)
    (htag : tag = (if vpfx then "v" else "") ++ s1 ++ "." ++ s2 ++ "." ++ s3) :
    determineNextVersion (some tag) (some "always-bump-major") =
        natToStr (digitsToNat s1.data + 1) ++ ".0.0" ∧
    determineNextVersion (some tag) (some "always-bump-minor") =
        natToStr (digitsToNat s1.data) ++ "." ++
          natToStr (digitsToNat s2.data + 1) ++ ".0" ∧
    (strat ≠ some "always-bump-major" → strat ≠ some "always-bump-minor" →
      determineNextVersion (some tag) strat =
        natToStr (digitsToNat s1.data) ++ "." ++ natToStr (digitsToNat s2.data) ++
          "." ++ natToStr (digitsToNat s3.data + 1)) ∧
    determineNextVersion none strat = "1.0.0" := by
  have hp := parts_triple s1 s2 s3 tag vpfx h1 h2 h3 htag
  refine ⟨?_, ?_, ?_, rfl⟩
  · rw [determineNextVersion_parts _ _ _ _ _ hp]
    simp
  · rw [determineNextVersion_parts _ _ _ _ _ hp]
    simp
  · intro hmaj hmin
    rw [determineNextVersion_parts _ _ _ _ _ hp, if_neg hmaj, if_neg hmin]

theorem c1_version_resolver_witness :
    determineNextVersion (some "v1.2.3") (some "always-bump-major") = "2.0.0" ∧
    determineNextVersion (some "v1.2.3") (some "always-bump-minor") = "1.3.0" ∧
    determineNextVersion (some "v1.2.3") (some "custom-strategy") = "1.2.4" ∧
    determineNextVersion none (some "custom-strategy") = "1.0.0" := by
  obtain ⟨a, b, c, d⟩ := c1_version_resolver "1" "2" "3" "v1.2.3" true
    (some "custom-strategy") (by decide) (by decide) (by decide) (by decide)
  exact ⟨a.trans (by decide), b.trans (by decide),
    (c (by decide) (by decide)).trans (by decide), d⟩

/-- C7: the version resolver is total on arbitrary tag strings: a
component JS deems non-numeric (its conversion is `NaN`) is treated as
`0` by the `|| 0` fallback, a component missing after the split is
taken as `0`, and in particular the tag `v2.x` under
`always-bump-patch` yields `2.0.1`; components JS does parse — with
exponent, radix prefix, sign or surrounding whitespace — keep their JS
numeric value, e.g. `v2.1e1` bumps to `2.10.1`. -/
theorem c7_lenient_parse (s1 : String)
    (h1 : s1.data ≠ [] ∧ s1.data.all Char.isDigit = true) :
    (∀ l : List Char, jsNumber l = JSNum.nan →
      jsOr0 (jsNumber l) = JSNum.dec 0 0) ∧
    (determineNextVersion (some s1) (some "always-bump-patch") =
      natToStr (digitsToNat s1.data) ++ "." ++ natToStr 0 ++ "." ++ natToStr 1) ∧
    determineNextVersion (some "v2.x") (some "always-bump-patch") = "2.0.1" ∧
    determineNextVersion (some "v2.1e1") (some "always-bump-patch") = "2.10.1" ∧
    jsNumber "x".data = JSNum.nan ∧
    jsNumber "1e1".data = JSNum.dec 10 0 ∧
    jsNumber "0x10".data = JSNum.dec 16 0 ∧
    jsNumber "+7".data = JSNum.dec 7 0 ∧
    jsNumber "-7".data = JSNum.dec (-7) 0 ∧
    jsNumber " 7 ".data = JSNum.dec 7 0 := by
  obtain ⟨ne1, dg1⟩ := h1
  refine ⟨?_, ?_, by decide, by decide, by decide, by decide, by decide,
    by decide, by decide, by decide⟩
  · intro l hl
    rw [jsOr0, hl]
    rfl
  · have hstrip : stripV s1.data = s1.data := by
      have := stripV_digits [] ne1 dg1
      simpa using this
    have hp : (splitChars (stripV s1.data)).map jsNumber =
        [JSNum.dec (digitsToNat s1.data : Int) 0] := by
      rw [hstrip, splitChars_no_dot (all_digit_no_dot dg1), List.map_singleton,
        jsNumber_digits ne1 dg1]
    have h0 : jsOr0 JSNum.nan = JSNum.dec ((0 : Nat) : Int) 0 := rfl
    simp only [determineNextVersion, hp, List.getD_cons_zero, List.getD_cons_succ,
      List.getD_nil, jsOr0_dec0, h0, jsAddOne_natCast, jsNumToStr_natCast]
    simp

theorem c7_lenient_parse_witness :
    jsOr0 (jsNumber ['x']) = JSNum.dec 0 0 ∧
    determineNextVersion (some "7") (some "always-bump-patch") = "7.0.1" ∧
    determineNextVersion (some "v2.x") (some "always-bump-patch") = "2.0.1" := by
  obtain ⟨a, b, c, _⟩ := c7_lenient_parse "7" (by decide)
  exact ⟨a ['x'] (by decide), b.trans (by decide), c⟩

end ReleasePlease

namespace ReleasePlease

theorem changelogBody_none (cs : List Commit) :
    changelogBody none cs = concatAll (cs.map bulletOf) := by
  induction cs with
  | nil => rfl
  | cons c t ih => simp [changelogBody, changelogStop, ih, concatAll]

theorem changelogBody_stop (pre : List Commit) (c : Commit) (post : List Commit)
    (hne : c.sha ≠ "") (hpre : ∀ c' ∈ pre, c'.sha ≠ c.sha) :
    changelogBody (some c.sha) (pre ++ c :: post) = concatAll (pre.map bulletOf) := by
  induction pre with
  | nil =>
    simp only [List.nil_append, changelogBody, changelogStop]
    simp [hne, concatAll]
  | cons c' t ih =>
    have hhd : c'.sha ≠ c.sha := hpre c' (List.mem_cons_self c' t)
    have htl : ∀ x ∈ t, x.sha ≠ c.sha := fun x hx => hpre x (List.mem_cons_of_mem _ hx)
    simp only [List.cons_append, changelogBody, changelogStop]
    simp [hhd, ih htl, concatAll]

/-- C2: the changelog is the `## Changes` header followed by one bullet
line per emitted commit — the first line of the commit message and the
7-character abbreviated identifier in parentheses; with no stop
reference every commit of the supplied page is emitted, and with the
stop reference equal to the identifier of one commit of the page (a
nonempty identifier not shared by an earlier commit) exactly the
commits before it are emitted. -/
theorem c2_changelog_generator (pre : List Commit) (c : Commit)
    (post cs : List Commit) (hne : c.sha ≠ "")
    (hpre : ∀ c' ∈ pre, c'.sha ≠ c.sha) :
    generateChangelog (pre ++ c :: post) (some c.sha) =
      "## Changes\n\n" ++ concatAll (pre.map bulletOf) ∧
    generateChangelog cs none = "## Changes\n\n" ++ concatAll (cs.map bulletOf) ∧
    bulletOf c = "* " ++ firstLine c.message ++ " (" ++ shaAbbrev c.sha ++ ")\n" := by
  refine ⟨?_, ?_, rfl⟩
  · rw [generateChangelog, changelogBody_stop pre c post hne hpre]
  · rw [generateChangelog, changelogBody_none]

theorem c2_changelog_generator_witness :
    generateChangelog
        [⟨"aaaaaaaaaaaa", "feat: one\nlong body"⟩,
         ⟨"bbbbbbbbbbbb", "fix: two"⟩, ⟨"cccccccccccc", "chore: three"⟩]
        (some "cccccccccccc") =
      "## Changes\n\n* feat: one (aaaaaaa)\n* fix: two (bbbbbbb)\n" ∧
    generateChangelog
        [⟨"aaaaaaaaaaaa", "feat: one\nlong body"⟩, ⟨"bbbbbbbbbbbb", "fix: two"⟩]
        none =
      "## Changes\n\n* feat: one (aaaaaaa)\n* fix: two (bbbbbbb)\n" := by
  obtain ⟨a, b, _⟩ := c2_changelog_generator
    [⟨"aaaaaaaaaaaa", "feat: one\nlong body"⟩, ⟨"bbbbbbbbbbbb", "fix: two"⟩]
    ⟨"cccccccccccc", "chore: three"⟩ []
    [⟨"aaaaaaaaaaaa", "feat: one\nlong body"⟩, ⟨"bbbbbbbbbbbb", "fix: two"⟩]
    (by decide) (by decide)
  exact ⟨a.trans (by decide), b.trans (by decide)⟩

/-- C4: the tag name is `path-vVERSION` exactly when the
`includeComponentInTag` flag is enabled and a (necessarily nonempty)
path input is set, and `vVERSION` in every other flag/path combination;
the PR head branch name is `release-please--TARGET--VERSION`. -/
theorem c4_tag_and_branch_naming (raw v tb : String) (p : Option String) :
    tagNameFor (some true) (getOptionalInput raw) v =
      (if raw = "" then "v" ++ v else raw ++ "-v" ++ v) ∧
    tagNameFor (some false) p v = "v" ++ v ∧
    tagNameFor none p v = "v" ++ v ∧
    tagNameFor (some true) none v = "v" ++ v ∧
    releaseBranchNameFor tb v = "release-please--" ++ tb ++ "--" ++ v := by
  refine ⟨?_, ?_, ?_, rfl, rfl⟩
  · by_cases hr : raw = ""
    · simp [getOptionalInput, hr, tagNameFor]
    · simp [getOptionalInput, hr, tagNameFor]
  · cases p <;> rfl
  · cases p <;> rfl

end ReleasePlease

namespace ReleasePlease

theorem filterMap_rename (l : List (String × Option OutVal)) (pfx : String → String) :
    (l.map (fun kv => (renameKey kv.1, kv.2))).filterMap
        (fun kv => kv.2.map (fun v => (pfx kv.1, v))) =
      l.filterMap (fun kv => kv.2.map (fun v => (pfx (renameKey kv.1), v))) := by
  rw [List.filterMap_map]
  rfl

theorem specEntries_eq_rename (r : Release) :
    specReleaseEntries r = (releaseEntries r).map (fun kv => (renameKey kv.1, kv.2)) := rfl

/-- C8: the output formatter, applied to one created release record
whose path is nonempty (as every record built by `main` is), emits the
global created flag, then the per-release outputs exactly as the spec
words them — keys unprefixed for the root path `.` and prefixed
`path--` otherwise, internal `tagName`/`uploadUrl`/`url` renamed to
`tag_name`/`upload_url`/`html_url`, fields with no value omitted —
then the JSON list of released paths. -/
theorem c8_output_formatter (r : Release) (h : r.path ≠ "") :
    outputReleases [r] =
      ("releases_created", OutVal.bool true) :: specReleaseOutputs r ++
        [("paths_released", OutVal.str (jsonStringArray [r.path]))] := by
  have hpath : jsStrOr r.path "." = r.path := if_neg h
  have hkey : ∀ k, pathKey r.path k = specKey r.path k := fun _ => rfl
  simp only [outputReleases, List.flatMap_cons, List.flatMap_nil, List.append_nil,
    List.map_cons, List.map_nil, releaseLoopOutputs, hpath, List.length_cons,
    List.length_nil, specReleaseOutputs, hkey, specEntries_eq_rename,
    filterMap_rename, List.cons_append, Nat.lt_irrefl, gt_iff_lt,
    Nat.zero_lt_succ, decide_True]

theorem c8_output_formatter_witness :
    outputReleases
        [{ tagName := "v2.3.0", name := "Release 2.3.0", body := "B",
           draft := some false, prerelease := some false, path := ".",
           version := some "2.3.0", id := some 5, url := some "U",
           uploadUrl := some "UP" }] =
      [("releases_created", OutVal.bool true),
       ("release_created", OutVal.bool true),
       ("tag_name", OutVal.str "v2.3.0"),
       ("name", OutVal.str "Release 2.3.0"),
       ("body", OutVal.str "B"),
       ("draft", OutVal.bool false),
       ("prerelease", OutVal.bool false),
       ("path", OutVal.str "."),
       ("version", OutVal.str "2.3.0"),
       ("id", OutVal.num 5),
       ("html_url", OutVal.str "U"),
       ("upload_url", OutVal.str "UP"),
       ("paths_released", OutVal.str "[\".\"]")] ∧
    outputReleases
        [{ tagName := "pkgA-v2.3.0", name := "Release 2.3.0", body := "B",
           draft := some false, prerelease := some false, path := "pkgA",
           version := some "2.3.0", id := some 5, url := some "U" }] =
      [("releases_created", OutVal.bool true),
       ("pkgA--release_created", OutVal.bool true),
       ("pkgA--tag_name", OutVal.str "pkgA-v2.3.0"),
       ("pkgA--name", OutVal.str "Release 2.3.0"),
       ("pkgA--body", OutVal.str "B"),
       ("pkgA--draft", OutVal.bool false),
       ("pkgA--prerelease", OutVal.bool false),
       ("pkgA--path", OutVal.str "pkgA"),
       ("pkgA--version", OutVal.str "2.3.0"),
       ("pkgA--id", OutVal.num 5),
       ("pkgA--html_url", OutVal.str "U"),
       ("paths_released", OutVal.str "[\"pkgA\"]")] := by
  constructor
  · exact (c8_output_formatter _ (by decide)).trans (by decide)
  · exact (c8_output_formatter _ (by decide)).trans (by decide)

end ReleasePlease

namespace ReleasePlease

theorem append2_ne (p k t : String)
    (h : ¬ ('-' :: '-' :: k.data) <:+ t.data) : p ++ "--" ++ k ≠ t := by
  intro he
  apply h
  refine ⟨p.data, ?_⟩
  have hdd : ("--" : String).data = ['-', '-'] := rfl
  have hd := congrArg String.data he
  simpa [String.data_append, hdd] using hd

theorem pathKey_ne_prs_created (p k : String) (hk : k ∈ relKeys) :
    pathKey p k ≠ "prs_created" := by
  simp only [relKeys, List.mem_cons, List.not_mem_nil, or_false] at hk
  unfold pathKey
  split
  · rcases hk with rfl|rfl|rfl|rfl|rfl|rfl|rfl|rfl|rfl|rfl|rfl|rfl|rfl|rfl|rfl <;> decide
  · rcases hk with rfl|rfl|rfl|rfl|rfl|rfl|rfl|rfl|rfl|rfl|rfl|rfl|rfl|rfl|rfl <;>
      exact append2_ne p _ _ (by decide)

theorem releaseEntries_key (r : Release) (kv : String × Option OutVal)
    (h : kv ∈ releaseEntries r) : renameKey kv.1 ∈ relKeys := by
  simp only [releaseEntries, List.mem_cons, List.not_mem_nil, or_false] at h
  rcases h with rfl|rfl|rfl|rfl|rfl|rfl|rfl|rfl|rfl|rfl|rfl|rfl|rfl|rfl <;>
    simp [renameKey, relKeys]

theorem releaseLoopOutputs_key (r : Release) (kv : String × OutVal)
    (h : kv ∈ releaseLoopOutputs r) :
    ∃ k ∈ relKeys, kv.1 = pathKey (jsStrOr r.path ".") k := by
  simp only [releaseLoopOutputs, List.mem_cons] at h
  rcases h with rfl | h
  · exact ⟨"release_created", by decide, rfl⟩
  · obtain ⟨kv', hmem, hmap⟩ := List.mem_filterMap.mp h
    rcases hv : kv'.2 with _ | v
    · rw [hv] at hmap
      exact absurd hmap (by simp)
    · rw [hv] at hmap
      have hkv : (pathKey (jsStrOr r.path ".") (renameKey kv'.1), v) = kv := by
        simpa using hmap
      exact ⟨renameKey kv'.1, releaseEntries_key r kv' hmem, by rw [← hkv]⟩

theorem outputReleases_no_prs_key (rs : List Release) :
    (outputReleases rs).all (fun kv => kv.1 ≠ "prs_created") = true := by
  rw [List.all_eq_true]
  intro kv hkv
  simp only [outputReleases, List.cons_append, List.mem_cons, List.mem_append,
    List.mem_flatMap, List.not_mem_nil, or_false] at hkv
  rcases hkv with rfl | ⟨r, _, hkv⟩ | rfl
  · simp
  · obtain ⟨k, hk, heq⟩ := releaseLoopOutputs_key r kv hkv
    simpa [heq] using pathKey_ne_prs_created (jsStrOr r.path ".") k hk
  · simp

theorem releaseBranchRun_no_prs (env : Env) (i : ActionInputs) :
    (exceptDelta (releaseBranchRun env i)).outputs.all
      (fun kv => kv.1 ≠ "prs_created") = true := by
  by_cases hskip : i.skipGiteaRelease = some true
  · simp [releaseBranchRun, hskip, exceptDelta]
  · rcases hbs : env.branchSha with e | sha
    · simp [releaseBranchRun, hskip, hbs, exceptDelta]
    · rcases hcm : env.commits with e2 | cs
      · simp [releaseBranchRun, hskip, hbs, hcm, exceptDelta]
      · rcases hcr : env.createReleaseRes with e3 | trip
        · simp [releaseBranchRun, hskip, hbs, hcm, hcr, exceptDelta]
        · obtain ⟨rid, hu, uu⟩ := trip
          simp only [releaseBranchRun, hskip, hbs, hcm, hcr, if_neg hskip,
            exceptDelta]
          exact outputReleases_no_prs_key _

theorem mainRun_skipPR_no_prs (env : Env) (i : ActionInputs)
    (h : i.skipGiteaPullRequest = some true) :
    (mainRun env i).outputs.all (fun kv => kv.1 ≠ "prs_created") = true := by
  have hpr : prBranchRun env i = Except.ok ⟨[], [], []⟩ := by
    unfold prBranchRun
    rw [if_pos h]
  have hrel := releaseBranchRun_no_prs env i
  unfold mainRun
  cases hr : releaseBranchRun env i with
  | error de =>
    obtain ⟨d, e⟩ := de
    rw [hr] at hrel
    simpa [exceptDelta] using hrel
  | ok d =>
    rw [hr] at hrel
    simp only [exceptDelta] at hrel
    rw [hpr]
    dsimp only
    simpa using hrel

end ReleasePlease

namespace ReleasePlease

/-- C3, counterexample: in the end-to-end scenario (latest release
`v1.2.3`, strategy `always-bump-patch`, `skipGiteaPullRequest = true`,
all remaining calls succeeding) the release is created as `v1.2.4` with
`releases_created = true` and the run succeeds, but — contrary to the
claim — no `prs_created` output is emitted at all: `outputPRs` is only
reached inside the non-skipped branch, so the skipped category gets no
`false` flag. -/
theorem c3_created_flags_counterexample :
    ((mainRun baseEnv inputsSkipPR).outputs.all
      (fun kv => kv.1 ≠ "prs_created")) = true ∧
    ("releases_created", OutVal.bool true) ∈ (mainRun baseEnv inputsSkipPR).outputs ∧
    ("tag_name", OutVal.str "v1.2.4") ∈ (mainRun baseEnv inputsSkipPR).outputs ∧
    (mainRun baseEnv inputsSkipPR).failed = none := by
  refine ⟨by decide, by decide, by decide, by decide⟩

/-- C3 amended: each formatter, when it runs, emits its boolean created
flag, `false` when it received no record; but a branch skipped by its
skip flag never invokes its formatter, so no flag at all is emitted for
that category.  In the scenario (prior tag `v1.2.3`, strategy
`always-bump-patch`, `skipGiteaPullRequest = true`) a release `v1.2.4`
is created with `releases_created = true` and no `prs_created` output
is emitted. -/
theorem c3_created_flags_amended :
    outputPRs [] = [("prs_created", OutVal.bool false)] ∧
    outputReleases [] =
      [("releases_created", OutVal.bool false),
       ("paths_released", OutVal.str "[]")] ∧
    (∀ env i, i.skipGiteaPullRequest = some true →
      (mainRun env i).outputs.all (fun kv => kv.1 ≠ "prs_created") = true) ∧
    ("releases_created", OutVal.bool true) ∈ (mainRun baseEnv inputsSkipPR).outputs ∧
    ("tag_name", OutVal.str "v1.2.4") ∈ (mainRun baseEnv inputsSkipPR).outputs := by
  exact ⟨by decide, by decide, mainRun_skipPR_no_prs, by decide, by decide⟩

theorem c3_created_flags_amended_witness :
    (mainRun baseEnv { baseInputs with skipGiteaPullRequest := some true }).outputs.all
      (fun kv => kv.1 ≠ "prs_created") = true :=
  c3_created_flags_amended.2.2.1 baseEnv
    { baseInputs with skipGiteaPullRequest := some true } rfl

end ReleasePlease

namespace ReleasePlease

/-- C5: with both branches enabled, a failure of the release branch
propagates — the run's final state is exactly what the release branch
had accumulated, with the failure message set, and the pull-request
branch contributes nothing (it does not run); if the release branch
succeeds and the pull-request branch then fails, every release output
already emitted is kept (it is a prefix of the final outputs) and the
run is still marked failed with that error's message. -/
theorem c5_failure_propagation (env : Env) (i : ActionInputs)
    (_hr : i.skipGiteaRelease ≠ some true)
    (_hp : i.skipGiteaPullRequest ≠ some true) :
    (∀ d e, releaseBranchRun env i = Except.error (d, e) →
      mainRun env i = ⟨d.outputs, d.warnings, d.calls, some (failMsg e)⟩) ∧
    (∀ d d' e, releaseBranchRun env i = Except.ok d →
      prBranchRun env i = Except.error (d', e) →
      mainRun env i =
        ⟨d.outputs ++ d'.outputs, d.warnings ++ d'.warnings,
          d.calls ++ d'.calls, some (failMsg e)⟩) := by
  constructor
  · intro d e h
    simp [mainRun, h]
  · intro d d' e h h'
    simp [mainRun, h, h']

theorem c5_failure_propagation_witness :
    mainRun envShaFail baseInputs =
      ⟨[], [], [ApiCall.getLatestRelease, ApiCall.getBranch],
        some "release-please failed: boom"⟩ ∧
    (mainRun envPRFail baseInputs).failed = some "release-please failed: prboom" ∧
    (mainRun envPRFail baseInputs).outputs =
      (exceptDelta (releaseBranchRun envPRFail baseInputs)).outputs ++
        [] ∧
    ("releases_created", OutVal.bool true) ∈ (mainRun envPRFail baseInputs).outputs := by
  have ha := (c5_failure_propagation envShaFail baseInputs (by decide) (by decide)).1
    ⟨[], [], [ApiCall.getLatestRelease, ApiCall.getBranch]⟩ "boom" rfl
  have hb := (c5_failure_propagation envPRFail baseInputs (by decide) (by decide)).2
    (exceptDelta (releaseBranchRun envPRFail baseInputs))
    ⟨[], [], [ApiCall.getLatestRelease, ApiCall.getBranch, ApiCall.createRef,
      ApiCall.createPullRequest]⟩ "prboom" rfl rfl
  refine ⟨ha.trans (by decide), ?_, ?_, ?_⟩
  · rw [hb]
    rfl
  · rw [hb]
  · rw [hb]
    decide

end ReleasePlease

namespace ReleasePlease

theorem prBranchRun_ok_shape (env : Env) (i : ActionInputs)
    (hp : i.skipGiteaPullRequest ≠ some true) (sha : String) (num : Nat)
    (url : String) (hbs : env.branchSha = Except.ok sha)
    (hcpr : env.createPRRes = Except.ok (num, url))
    (hlab : i.skipLabeling = some true ∨ env.addLabelsRes = Except.ok ()) :
    prBranchRun env i = Except.ok
      ⟨outputPRs [{
          number := num
          title := "chore: release " ++ nextVersionOf i env.latestRelease
          body := "Release " ++ nextVersionOf i env.latestRelease ++
            "\n\nThis PR was generated by release-please for Gitea."
          headBranchName :=
            releaseBranchNameFor i.targetBranch (nextVersionOf i env.latestRelease)
          baseBranchName := i.targetBranch
          url := url
          labels := if i.skipLabeling = some true then []
            else ["autorelease: pending"] }],
        (match env.createRefRes with
         | Except.ok _ => []
         | Except.error _ =>
            ["Branch " ++ releaseBranchNameFor i.targetBranch
              (nextVersionOf i env.latestRelease) ++ " may already exist"]),
        resolverCalls i ++ [ApiCall.getBranch, ApiCall.createRef,
          ApiCall.createPullRequest] ++
          (if i.skipLabeling = some true then [] else [ApiCall.addLabels])⟩ := by
  rcases hsl : i.skipLabeling with _ | b
  · have hal : env.addLabelsRes = Except.ok () := by
      rcases hlab with h | h
      · simp [hsl] at h
      · exact h
    rcases href : env.createRefRes with e | u <;>
      simp [prBranchRun, if_neg hp, hbs, hcpr, hsl, hal, href]
  · cases b
    · have hal : env.addLabelsRes = Except.ok () := by
        rcases hlab with h | h
        · simp [hsl] at h
        · exact h
      rcases href : env.createRefRes with e | u <;>
        simp [prBranchRun, if_neg hp, hbs, hcpr, hsl, hal, href]
    · rcases href : env.createRefRes with e | u <;>
        simp [prBranchRun, if_neg hp, hbs, hcpr, hsl, href]

theorem releaseBranchRun_ok_shape (env : Env) (i : ActionInputs)
    (hr : i.skipGiteaRelease ≠ some true) (sha : String) (cs : List Commit)
    (rid : Nat) (hu uu : String)
    (hbs : env.branchSha = Except.ok sha) (hcm : env.commits = Except.ok cs)
    (hcr : env.createReleaseRes = Except.ok (rid, hu, uu)) :
    releaseBranchRun env i = Except.ok
      ⟨outputReleases [{
          id := some rid
          tagName := tagNameFor i.includeComponentInTag i.path
            (nextVersionOf i env.latestRelease)
          name := "Release " ++ nextVersionOf i env.latestRelease
          body := generateChangelog cs (fromTagOf env.latestRelease)
          draft := some false
          prerelease := some false
          path := pathOf i
          version := some (nextVersionOf i env.latestRelease)
          url := some hu
          uploadUrl := some uu }],
        [], resolverCalls i ++ [ApiCall.getBranch, ApiCall.getLatestRelease,
          ApiCall.listCommits, ApiCall.createRelease]⟩ := by
  simp [releaseBranchRun, if_neg hr, hbs, hcm, hcr]

/-- C6: in the pull-request branch a ref-creation failure is downgraded
to a warning and the pull-request creation still executes with the
derived branch name; a failure of any other step of the branch — the
branch lookup, the pull-request creation, or the label attachment —
propagates as an error instead. -/
theorem c6_ref_conflict_downgraded (env : Env) (i : ActionInputs)
    (hp : i.skipGiteaPullRequest ≠ some true) :
    (∀ sha e num url, env.branchSha = Except.ok sha →
      env.createRefRes = Except.error e →
      env.createPRRes = Except.ok (num, url) →
      i.skipLabeling = some true ∨ env.addLabelsRes = Except.ok () →
      ∃ d, prBranchRun env i = Except.ok d ∧
        d.warnings = ["Branch " ++
          releaseBranchNameFor i.targetBranch (nextVersionOf i env.latestRelease) ++
          " may already exist"] ∧
        ("prs_created", OutVal.bool true) ∈ d.outputs ∧
        ApiCall.createPullRequest ∈ d.calls) ∧
    (∀ e, env.branchSha = Except.error e →
      prBranchRun env i =
        Except.error (⟨[], [], resolverCalls i ++ [ApiCall.getBranch]⟩, e)) ∧
    (∀ sha e, env.branchSha = Except.ok sha → env.createPRRes = Except.error e →
      ∃ d, prBranchRun env i = Except.error (d, e)) ∧
    (∀ sha num url e, env.branchSha = Except.ok sha →
      env.createPRRes = Except.ok (num, url) → i.skipLabeling ≠ some true →
      env.addLabelsRes = Except.error e →
      ∃ d, prBranchRun env i = Except.error (d, e)) := by
  refine ⟨?_, ?_, ?_, ?_⟩
  · intro sha e num url hbs href hcpr hlab
    refine ⟨_, prBranchRun_ok_shape env i hp sha num url hbs hcpr hlab, ?_, ?_, ?_⟩
    · simp [href]
    · simp [outputPRs]
    · simp
  · intro e hbs
    simp [prBranchRun, if_neg hp, hbs]
  · intro sha e hbs hcpr
    refine ⟨⟨[], (match env.createRefRes with
      | Except.ok _ => []
      | Except.error _ => ["Branch " ++ releaseBranchNameFor i.targetBranch
          (nextVersionOf i env.latestRelease) ++ " may already exist"]),
      resolverCalls i ++ [ApiCall.getBranch, ApiCall.createRef,
        ApiCall.createPullRequest]⟩, ?_⟩
    rcases href : env.createRefRes with e2 | u <;>
      simp [prBranchRun, if_neg hp, hbs, hcpr, href]
  · intro sha num url e hbs hcpr hsl hal
    refine ⟨⟨[], (match env.createRefRes with
      | Except.ok _ => []
      | Except.error _ => ["Branch " ++ releaseBranchNameFor i.targetBranch
          (nextVersionOf i env.latestRelease) ++ " may already exist"]),
      resolverCalls i ++ [ApiCall.getBranch, ApiCall.createRef,
        ApiCall.createPullRequest, ApiCall.addLabels]⟩, ?_⟩
    have hsl' : (if i.skipLabeling = some true then ([] : List String)
        else ["autorelease: pending"]) = ["autorelease: pending"] := if_neg hsl
    rcases href : env.createRefRes with e2 | u <;>
      simp [prBranchRun, if_neg hp, hbs, hcpr, hsl', hal, href]

end ReleasePlease

namespace ReleasePlease

theorem c6_ref_conflict_downgraded_witness :
    (∃ d, prBranchRun envRefFail baseInputs = Except.ok d ∧
      d.warnings = ["Branch release-please--main--1.2.4 may already exist"] ∧
      ("prs_created", OutVal.bool true) ∈ d.outputs ∧
      ApiCall.createPullRequest ∈ d.calls) ∧
    prBranchRun envShaFail baseInputs =
      Except.error (⟨[], [], [ApiCall.getLatestRelease, ApiCall.getBranch]⟩, "boom") ∧
    (∃ d, prBranchRun envPRFail baseInputs = Except.error (d, "prboom")) ∧
    (∃ d, prBranchRun envLabelFail baseInputs = Except.error (d, "labelboom")) := by
  obtain ⟨h1, _, _, _⟩ := c6_ref_conflict_downgraded envRefFail baseInputs (by decide)
  obtain ⟨_, g2, _, _⟩ := c6_ref_conflict_downgraded envShaFail baseInputs (by decide)
  obtain ⟨_, _, p3, _⟩ := c6_ref_conflict_downgraded envPRFail baseInputs (by decide)
  obtain ⟨_, _, _, l4⟩ := c6_ref_conflict_downgraded envLabelFail baseInputs (by decide)
  refine ⟨?_, ?_, ?_, ?_⟩
  · obtain ⟨d, hd, hw, hm, hc⟩ :=
      h1 "headsha1234" "refboom" 9 "pru" rfl rfl rfl (Or.inr rfl)
    exact ⟨d, hd, hw.trans (by decide), hm, hc⟩
  · exact g2 "boom" rfl
  · exact p3 "headsha1234" "prboom" rfl rfl
  · exact l4 "headsha1234" 9 "pru" "labelboom" rfl rfl (by decide) rfl

theorem prBranch_calls_no_resolver (env : Env) (i : ActionInputs) (v : String)
    (hv : i.releaseAs = some v) :
    (exceptDelta (prBranchRun env i)).calls.count ApiCall.getLatestRelease = 0 := by
  unfold prBranchRun
  simp only [resolverCalls, hv]
  split
  · rfl
  · split
    · simp [exceptDelta]
    · split
      · simp [exceptDelta]
      · split
        · simp [exceptDelta]
        · split
          · simp [exceptDelta]
          · split
            · simp [exceptDelta]
            · simp [exceptDelta]

theorem relBranch_calls_le (env : Env) (i : ActionInputs) (v : String)
    (hv : i.releaseAs = some v) :
    (exceptDelta (releaseBranchRun env i)).calls.count ApiCall.getLatestRelease ≤ 1 := by
  unfold releaseBranchRun
  simp only [resolverCalls, hv]
  split
  · simp [exceptDelta]
  · split
    · simp [exceptDelta]
    · split
      · simp [exceptDelta]
      · split
        · simp [exceptDelta]
        · simp [exceptDelta]

theorem mainRun_calls_count (env : Env) (i : ActionInputs) :
    (mainRun env i).calls.count ApiCall.getLatestRelease ≤
      (exceptDelta (releaseBranchRun env i)).calls.count ApiCall.getLatestRelease +
      (exceptDelta (prBranchRun env i)).calls.count ApiCall.getLatestRelease := by
  unfold mainRun
  cases hr : releaseBranchRun env i with
  | error de =>
    obtain ⟨d, e⟩ := de
    simp [exceptDelta]
  | ok d =>
    cases hp' : prBranchRun env i with
    | error de' =>
      obtain ⟨d', e⟩ := de'
      simp [exceptDelta, List.count_append]
    | ok d' =>
      simp [exceptDelta, List.count_append]

theorem pathOf_ne (i : ActionInputs) : pathOf i ≠ "" := by
  unfold pathOf jsStrOr
  rcases i.path with _ | p
  · decide
  · by_cases hp : p = "" <;> simp [hp]

end ReleasePlease

namespace ReleasePlease

/-- C9: when the explicit release-as override is set, both branches use
exactly that string as the next version — the run is invariant under
the versioning strategy, the created pull request and release carry
the override verbatim — and the version resolver is not consulted: the
run makes at most one latest-release lookup (the changelog's own
direct lookup inside the release branch) and none at all when the
release branch is skipped. -/
theorem c9_release_as_override (env : Env) (i : ActionInputs) (v : String)
    (hv : i.releaseAs = some v) :
    (∀ s', mainRun env { i with versioningStrategy := s' } = mainRun env i) ∧
    (mainRun env i).calls.count ApiCall.getLatestRelease ≤ 1 ∧
    (i.skipGiteaRelease = some true →
      (mainRun env i).calls.count ApiCall.getLatestRelease = 0) ∧
    (∀ sha num url, env.branchSha = Except.ok sha →
      env.createPRRes = Except.ok (num, url) →
      (i.skipLabeling = some true ∨ env.addLabelsRes = Except.ok ()) →
      i.skipGiteaPullRequest ≠ some true →
      ∃ d, prBranchRun env i = Except.ok d ∧
        ("pr", OutVal.pr {
          number := num
          title := "chore: release " ++ v
          body := "Release " ++ v ++
            "\n\nThis PR was generated by release-please for Gitea."
          headBranchName := releaseBranchNameFor i.targetBranch v
          baseBranchName := i.targetBranch
          url := url
          labels := if i.skipLabeling = some true then []
            else ["autorelease: pending"] }) ∈ d.outputs) ∧
    (∀ sha cs rid hu uu, env.branchSha = Except.ok sha →
      env.commits = Except.ok cs →
      env.createReleaseRes = Except.ok (rid, hu, uu) →
      i.skipGiteaRelease ≠ some true →
      ∃ d, releaseBranchRun env i = Except.ok d ∧
        (pathKey (pathOf i) "version", OutVal.str v) ∈ d.outputs) := by
  have hnv : nextVersionOf i env.latestRelease = v := by
    simp [nextVersionOf, hv]
  refine ⟨?_, ?_, ?_, ?_, ?_⟩
  · intro s'
    have h1 : releaseBranchRun env { i with versioningStrategy := s' } =
        releaseBranchRun env i := by
      simp [releaseBranchRun, nextVersionOf, resolverCalls, pathOf, hv]
    have h2 : prBranchRun env { i with versioningStrategy := s' } =
        prBranchRun env i := by
      simp [prBranchRun, nextVersionOf, resolverCalls, hv]
    unfold mainRun
    rw [h1, h2]
  · have ha := mainRun_calls_count env i
    have hb := relBranch_calls_le env i v hv
    have hc := prBranch_calls_no_resolver env i v hv
    omega
  · intro hskip
    have hrel : releaseBranchRun env i = Except.ok ⟨[], [], []⟩ := by
      unfold releaseBranchRun
      rw [if_pos hskip]
    have hc := prBranch_calls_no_resolver env i v hv
    unfold mainRun
    rw [hrel]
    cases hp' : prBranchRun env i with
    | error de' =>
      obtain ⟨d', e⟩ := de'
      rw [hp'] at hc
      simp only [exceptDelta] at hc
      simpa using hc
    | ok d' =>
      rw [hp'] at hc
      simp only [exceptDelta] at hc
      simpa using hc
  · intro sha num url hbs hcpr hlab hskipPR
    refine ⟨_, prBranchRun_ok_shape env i hskipPR sha num url hbs hcpr hlab, ?_⟩
    simp [outputPRs, hnv]
  · intro sha cs rid hu uu hbs hcm hcr hskipRel
    refine ⟨_, releaseBranchRun_ok_shape env i hskipRel sha cs rid hu uu hbs hcm hcr, ?_⟩
    have hpath : jsStrOr (pathOf i) "." = pathOf i := if_neg (pathOf_ne i)
    simp [outputReleases, releaseLoopOutputs, releaseEntries, renameKey, hpath, hnv]

end ReleasePlease

namespace ReleasePlease

theorem c9_release_as_override_witness :
    mainRun baseEnv { inputsReleaseAs with
        versioningStrategy := some "always-bump-major" } =
      mainRun baseEnv inputsReleaseAs ∧
    (mainRun baseEnv inputsReleaseAs).calls.count ApiCall.getLatestRelease ≤ 1 ∧
    (mainRun baseEnv { inputsReleaseAs with
        skipGiteaRelease := some true }).calls.count ApiCall.getLatestRelease = 0 ∧
    (∃ d, prBranchRun baseEnv inputsReleaseAs = Except.ok d ∧
      ("pr", OutVal.pr {
        number := 9
        title := "chore: release 9.9.9"
        body := "Release 9.9.9\n\nThis PR was generated by release-please for Gitea."
        headBranchName := "release-please--main--9.9.9"
        baseBranchName := "main"
        url := "pru"
        labels := ["autorelease: pending"] }) ∈ d.outputs) ∧
    (∃ d, releaseBranchRun baseEnv inputsReleaseAs = Except.ok d ∧
      ("version", OutVal.str "9.9.9") ∈ d.outputs) := by
  obtain ⟨h1, h2, _, h4, h5⟩ := c9_release_as_override baseEnv inputsReleaseAs "9.9.9" rfl
  obtain ⟨_, _, h3, _, _⟩ := c9_release_as_override baseEnv
    { inputsReleaseAs with skipGiteaRelease := some true } "9.9.9" rfl
  refine ⟨h1 (some "always-bump-major"), h2, h3 rfl, ?_, ?_⟩
  · obtain ⟨d, hd, hm⟩ := h4 "headsha1234" 9 "pru" rfl rfl (Or.inr rfl) (by decide)
    exact ⟨d, hd, hm⟩
  · obtain ⟨d, hd, hm⟩ := h5 "headsha1234" [] 1 "u" "uu" rfl rfl rfl (by decide)
    exact ⟨d, hd, hm⟩

end ReleasePlease

namespace ReleasePlease

/-- C10: an absent or empty skip input parses to `undefined` (`none`),
so `parseInputs` leaves both skip flags unset; and in `main` a branch
is skipped exactly when its flag is an explicit `true` — under any
other flag value (unset or explicit `false`) the release branch
reaches `createRelease` and the pull-request branch reaches
`createPullRequest`, so an unconfigured invocation attempts both. -/
theorem c10_skip_flags_default (r : RawInputs) (i : ActionInputs) (env : Env)
    (sha url hu uu : String) (cs : List Commit) (rid num : Nat)
    (hbs : env.branchSha = Except.ok sha) (hcm : env.commits = Except.ok cs)
    (hcr : env.createReleaseRes = Except.ok (rid, hu, uu))
    (hcpr : env.createPRRes = Except.ok (num, url))
    (hal : env.addLabelsRes = Except.ok ()) :
    getOptionalBooleanInput "" = Except.ok none ∧
    (r.skipGiteaRelease = "" → r.skipGiteaPullRequest = "" →
      ∀ i', parseInputs r = Except.ok i' →
        i'.skipGiteaRelease = none ∧ i'.skipGiteaPullRequest = none) ∧
    (i.skipGiteaRelease ≠ some true →
      ApiCall.createRelease ∈ (mainRun env i).calls) ∧
    (i.skipGiteaRelease = some true →
      ApiCall.createRelease ∉ (mainRun env i).calls) ∧
    (i.skipGiteaPullRequest ≠ some true →
      ApiCall.createPullRequest ∈ (mainRun env i).calls) ∧
    (i.skipGiteaPullRequest = some true →
      ApiCall.createPullRequest ∉ (mainRun env i).calls) := by
  refine ⟨rfl, ?_, ?_, ?_, ?_, ?_⟩
  · intro h1 h2 i' hp
    unfold parseInputs at hp
    rw [h1, h2] at hp
    have hnone : getOptionalBooleanInput "" = Except.ok none := rfl
    rw [hnone] at hp
    rcases ht1 : requiredInput r.token with e | tok <;> rw [ht1] at hp
    · simp at hp
    rcases ht2 : requiredInput r.giteaApiUrl with e | x2 <;> rw [ht2] at hp
    · simp at hp
    rcases ht3 : requiredInput r.giteaOwner with e | x3 <;> rw [ht3] at hp
    · simp at hp
    rcases ht4 : requiredInput r.giteaRepo with e | x4 <;> rw [ht4] at hp
    · simp at hp
    rcases ht5 : getOptionalBooleanInput r.skipLabeling with e | x5 <;> rw [ht5] at hp
    · simp at hp
    rcases ht6 : getOptionalBooleanInput r.includeComponentInTag with e | x6 <;>
      rw [ht6] at hp
    · simp at hp
    simp only [Except.ok.injEq] at hp
    subst hp
    exact ⟨rfl, rfl⟩
  · intro hns
    have hrelsh := releaseBranchRun_ok_shape env i hns sha cs rid hu uu hbs hcm hcr
    by_cases hps : i.skipGiteaPullRequest = some true
    · have hpr : prBranchRun env i = Except.ok ⟨[], [], []⟩ := by
        unfold prBranchRun
        rw [if_pos hps]
      unfold mainRun
      rw [hrelsh, hpr]
      simp [List.mem_append]
    · have hprsh := prBranchRun_ok_shape env i hps sha num url hbs hcpr (Or.inr hal)
      unfold mainRun
      rw [hrelsh, hprsh]
      simp [List.mem_append]
  · intro hs
    have hrel : releaseBranchRun env i = Except.ok ⟨[], [], []⟩ := by
      unfold releaseBranchRun
      rw [if_pos hs]
    by_cases hps : i.skipGiteaPullRequest = some true
    · have hpr : prBranchRun env i = Except.ok ⟨[], [], []⟩ := by
        unfold prBranchRun
        rw [if_pos hps]
      unfold mainRun
      rw [hrel, hpr]
      simp
    · have hprsh := prBranchRun_ok_shape env i hps sha num url hbs hcpr (Or.inr hal)
      unfold mainRun
      rw [hrel, hprsh]
      rcases hra : i.releaseAs with _ | vv <;>
        by_cases hsl : i.skipLabeling = some true <;>
        simp [resolverCalls, hra, hsl, List.mem_append]
  · intro hps
    have hprsh := prBranchRun_ok_shape env i hps sha num url hbs hcpr (Or.inr hal)
    by_cases hns : i.skipGiteaRelease = some true
    · have hrel : releaseBranchRun env i = Except.ok ⟨[], [], []⟩ := by
        unfold releaseBranchRun
        rw [if_pos hns]
      unfold mainRun
      rw [hrel, hprsh]
      simp [List.mem_append]
    · have hrelsh := releaseBranchRun_ok_shape env i hns sha cs rid hu uu hbs hcm hcr
      unfold mainRun
      rw [hrelsh, hprsh]
      simp [List.mem_append]
  · intro hps
    have hpr : prBranchRun env i = Except.ok ⟨[], [], []⟩ := by
      unfold prBranchRun
      rw [if_pos hps]
    by_cases hns : i.skipGiteaRelease = some true
    · have hrel : releaseBranchRun env i = Except.ok ⟨[], [], []⟩ := by
        unfold releaseBranchRun
        rw [if_pos hns]
      unfold mainRun
      rw [hrel, hpr]
      simp
    · have hrelsh := releaseBranchRun_ok_shape env i hns sha cs rid hu uu hbs hcm hcr
      unfold mainRun
      rw [hrelsh, hpr]
      rcases hra : i.releaseAs with _ | vv <;>
        simp [resolverCalls, hra, List.mem_append]

theorem c10_skip_flags_default_witness :
    getOptionalBooleanInput "" = Except.ok none ∧
    ApiCall.createRelease ∈ (mainRun baseEnv baseInputs).calls ∧
    ApiCall.createPullRequest ∈ (mainRun baseEnv baseInputs).calls ∧
    ApiCall.createPullRequest ∉ (mainRun baseEnv inputsSkipPR).calls := by
  obtain ⟨w1, _, w3, _, w5, _⟩ := c10_skip_flags_default
    { token := "t", releaseType := "", path := "", repoUrl := "",
      targetBranch := "", configFile := "", manifestFile := "",
      giteaApiUrl := "u", proxyServer := "", skipGiteaRelease := "",
      skipGiteaPullRequest := "", skipLabeling := "",
      includeComponentInTag := "", changelogHost := "",
      versioningStrategy := "", releaseAs := "", giteaOwner := "o",
      giteaRepo := "r" }
    baseInputs baseEnv "headsha1234" "pru" "u" "uu" [] 1 9
    rfl rfl rfl rfl rfl
  obtain ⟨_, _, _, _, _, w6⟩ := c10_skip_flags_default
    { token := "t", releaseType := "", path := "", repoUrl := "",
      targetBranch := "", configFile := "", manifestFile := "",
      giteaApiUrl := "u", proxyServer := "", skipGiteaRelease := "",
      skipGiteaPullRequest := "", skipLabeling := "",
      includeComponentInTag := "", changelogHost := "",
      versioningStrategy := "", releaseAs := "", giteaOwner := "o",
      giteaRepo := "r" }
    inputsSkipPR baseEnv "headsha1234" "pru" "u" "uu" [] 1 9
    rfl rfl rfl rfl rfl
  exact ⟨w1, w3 (by decide), w5 (by decide), w6 rfl⟩

end ReleasePlease
